import Mathlib

set_option maxRecDepth 100000

/-!
Shallow embedding of `src/main.py` (OpenCore log analyzer): the line
classifier, junk-line heuristic, collision-safe naming, split/clean
writers and the background chunked loader, together with theorems
settling the frozen specification claims.

Modelling conventions:
* Python `str` is modelled by Lean `String` (or `List Char` where the
  code works character-wise).
* The regex patterns in `LEVEL_MAP` are all of the shape
  `\bTOKEN\b` (case-insensitive), except `\bWARN(?:ING)?\b` which is the
  disjunction of the word-bounded tokens `WARN` and `WARNING`.  They are
  embedded as executable word-bounded, case-insensitive token searches.
  Word characters are modelled as ASCII alphanumerics plus underscore
  (Python `\w` additionally covers non-ASCII word characters; every
  token involved is pure ASCII).
* Python case-insensitivity is modelled by lowercasing with
  `Char.toLower` (exact on ASCII, which is all the tokens use).
-/

/-- Word character for the `\b` boundary of Python's `re` module,
restricted to ASCII: letters, digits and underscore. -/
def isWordChar (c : Char) : Bool :=
  c.isAlphanum || c == '_'

/-- Does the (lowercase) token `tok` match at the head of `s`
case-insensitively, with a word boundary immediately after it?
(The boundary before the token is checked by the caller.) -/
def tokenHere : List Char → List Char → Bool
  | [], [] => true
  | [], c :: _ => !isWordChar c
  | _ :: _, [] => false
  | t :: ts, c :: cs => (c.toLower == t) && tokenHere ts cs

/-- Scan of `re.search` for the pattern `\bTOK\b` (case-insensitive):
try the token at every position; `prevOk` records whether the position
just before the current suffix is a word boundary (start of string, or
the previous character is not a word character).  All tokens start and
end with a word character, so `\b` before the token is exactly
"previous character absent or not a word character". -/
def searchTokenAux (tok : List Char) : Bool → List Char → Bool
  | prevOk, [] => prevOk && tokenHere tok []
  | prevOk, c :: cs =>
      (prevOk && tokenHere tok (c :: cs)) || searchTokenAux tok (!isWordChar c) cs

/-- `re.search(re.compile(r"\bTOK\b", re.IGNORECASE), s)` viewed as a
Boolean: `tok` is the token in lowercase. -/
def searchToken (tok : String) (s : String) : Bool :=
  searchTokenAux tok.data true s.data

/-- One entry of `LEVEL_MAP`: the regex source text (used by the
`sorted(..., key=lambda x: -len(x[0]))` in `LEVEL_PATTERNS`), the
compiled matcher, and the severity level it maps to. -/
structure Rule where
  src : String
  matchFn : String → Bool
  lvl : String

def ruleFATAL : Rule := ⟨"\\bFATAL\\b", fun s => searchToken "fatal" s, "error"⟩

def ruleERROR : Rule := ⟨"\\bERROR\\b", fun s => searchToken "error" s, "error"⟩

def ruleERR : Rule := ⟨"\\bERR\\b", fun s => searchToken "err" s, "error"⟩

def ruleINVALID : Rule := ⟨"\\bINVALID\\b", fun s => searchToken "invalid" s, "error"⟩

/-- `\bWARN(?:ING)?\b` searches successfully exactly when the
word-bounded token `WARN` or the word-bounded token `WARNING` occurs. -/
def ruleWARN : Rule :=
  ⟨"\\bWARN(?:ING)?\\b", fun s => searchToken "warn" s || searchToken "warning" s, "warning"⟩

def ruleWARNING : Rule := ⟨"\\bWARNING\\b", fun s => searchToken "warning" s, "warning"⟩

def ruleINFO : Rule := ⟨"\\bINFO\\b", fun s => searchToken "info" s, "info"⟩

def ruleDBG : Rule := ⟨"\\bDBG\\b", fun s => searchToken "dbg" s, "debug"⟩

def ruleDEBUG : Rule := ⟨"\\bDEBUG\\b", fun s => searchToken "debug" s, "debug"⟩

def ruleSUCCESS : Rule := ⟨"\\bSUCCESS\\b", fun s => searchToken "success" s, "success"⟩

def ruleOK : Rule := ⟨"\\bOK\\b", fun s => searchToken "ok" s, "success"⟩

def ruleMAC : Rule := ⟨"\\bMAC\\b", fun s => searchToken "mac" s, "platform-info"⟩

/-- `LEVEL_MAP` in declaration (= Python dict insertion) order. -/
def LEVEL_MAP : List Rule :=
  [ruleFATAL, ruleERROR, ruleERR, ruleINVALID, ruleWARN, ruleWARNING,
   ruleINFO, ruleDBG, ruleDEBUG, ruleSUCCESS, ruleOK, ruleMAC]

/-- Stable insertion for sorting by descending `src` length: `r` is
placed before the first element whose source text is not longer, so
that among equal lengths earlier (declaration-order) entries stay
first — the behaviour of Python's stable `sorted` with key `-len`. -/
def insertRule (r : Rule) : List Rule → List Rule
  | [] => [r]
  | x :: xs =>
      if x.src.length ≤ r.src.length then r :: x :: xs
      else x :: insertRule r xs

/-- Stable sort by descending pattern-source length, the semantics of
`sorted(LEVEL_MAP.items(), key=lambda x: -len(x[0]))`. -/
def sortRules : List Rule → List Rule
  | [] => []
  | x :: xs => insertRule x (sortRules xs)

/-- `LEVEL_PATTERNS`: the rule table ordered by descending pattern
source length, ties broken by declaration order. -/
def LEVEL_PATTERNS : List Rule := sortRules LEVEL_MAP

/-- `classify_line` (src/main.py lines 74–80): empty line is `other`;
otherwise the first matching pattern in `LEVEL_PATTERNS` wins;
no match falls back to `other`. -/
def classify_line (line : String) : String :=
  if line = "" then "other"
  else
    match LEVEL_PATTERNS.find? (fun r => r.matchFn line) with
    | some r => r.lvl
    | none => "other"

/-- `COLOR_TAGS` (src/main.py lines 52–60): category → display colour.
Only the key set and its declaration order matter for the claims. -/
def COLOR_TAGS : List (String × String) :=
  [("error", "red"), ("warning", "orange"), ("info", "blue"), ("debug", "gray"),
   ("success", "green"), ("platform-info", "purple"), ("other", "black")]

/-- The seven category keys of `COLOR_TAGS`, in declaration order. -/
def sinkCategories : List String := COLOR_TAGS.map Prod.fst

/-- Python's `str.isspace` restricted to ASCII: space, tab, newline,
carriage return, vertical tab and form feed. -/
def pyIsSpace (c : Char) : Bool :=
  c == ' ' || c == '\t' || c == '\n' || c == '\r' || c == '\x0b' || c == '\x0c'

/-- `line.rstrip("\n\r")`: drop trailing newline / carriage-return
characters. -/
def rstripNLCR (l : List Char) : List Char :=
  (l.reverse.dropWhile (fun c => c == '\n' || c == '\r')).reverse

/-- `s.strip()`: drop leading and trailing whitespace. -/
def stripWS (l : List Char) : List Char :=
  ((l.dropWhile pyIsSpace).reverse.dropWhile pyIsSpace).reverse

/-- `is_junk_line` (src/main.py lines 83–95); a Python `str` is
modelled as its list of characters.  The float test
`nul_count / len(raw) > 0.5` holds exactly when `2 * nul_count >
len(raw)`. -/
def is_junk_line (line : List Char) : Bool :=
  if line.isEmpty then true
  else
    let raw := rstripNLCR line
    if (stripWS raw).isEmpty then true
    else
      let nul_count := (raw.filter (fun c => c == '\x00')).length
      if 0 < raw.length && raw.length < 2 * nul_count then true
      else
        let visible := raw.filter
          (fun c => !(c == '\x00' || c == '\n' || c == '\r') && !pyIsSpace c)
        if visible.length < 5 && 80 < raw.length then true
        else false

/-- Universal-newline translation performed by `open(..., 'r')`:
`\r\n` and a lone `\r` both become `\n`.  (Writing in text mode maps
`\n` to `os.linesep`, which is `\n` on the Linux platform modelled
here, so writing is the identity.) -/
def translateNL : List Char → List Char
  | [] => []
  | [c] => if c = '\r' then ['\n'] else [c]
  | c :: d :: rest =>
      if c = '\r' then
        if d = '\n' then '\n' :: translateNL rest
        else '\n' :: translateNL (d :: rest)
      else c :: translateNL (d :: rest)

/-- Prepend one character to a line decomposition: a `\n` always opens
a fresh (already terminated) line, any other character extends the
first line. -/
def consLine (c : Char) (ls : List (List Char)) : List (List Char) :=
  if c = '\n' then [c] :: ls
  else
    match ls with
    | [] => [[c]]
    | l :: rest => (c :: l) :: rest

/-- Split an (already newline-translated) character stream into lines,
each keeping its terminating `\n`; the final line may be
unterminated.  This is how `for line in fh` cuts a text file. -/
def splitNL : List Char → List (List Char)
  | [] => []
  | c :: rest => consLine c (splitNL rest)

/-- The line sequence produced by iterating a file handle over raw
content (src/main.py `iter_lines` / any `for line in fh`). -/
def pyReadLines (content : List Char) : List (List Char) :=
  splitNL (translateNL content)

/-- Result of one clean pass over raw file content: the concatenation
of the non-junk lines, each written verbatim (src/main.py
lines 130–136). -/
def cleanedContent (content : List Char) : List Char :=
  ((pyReadLines content).filter (fun l => !is_junk_line l)).flatten

/-- A filesystem path, modelled as the pair Python's `pathlib` calls
`stem` and `suffix`; the file name is their concatenation.  (All paths
the program builds live in one directory, which is left implicit.) -/
structure FPath where
  stem : String
  ext : String
deriving DecidableEq

def FPath.name (p : FPath) : String := p.stem ++ p.ext

/-- The candidate `p.with_name(f"{base}_{i}{ext}")` tried by
`make_unique_path`. -/
def numberedCandidate (p : FPath) (i : Nat) : FPath :=
  ⟨p.stem ++ "_" ++ toString i, p.ext⟩

/-- `for i in range(1, 1000)` of `make_unique_path`: return the first
numbered candidate that does not exist, `fuel` attempts starting at
index `i`.  `ex` is the `Path.exists` view of the directory. -/
def firstFreeCandidate (ex : String → Bool) (p : FPath) : Nat → Nat → Option FPath
  | 0, _ => none
  | fuel + 1, i =>
      if !ex (numberedCandidate p i).name then some (numberedCandidate p i)
      else firstFreeCandidate ex p fuel (i + 1)

/-- `make_unique_path` (src/main.py lines 108–117): keep `p` if free,
otherwise try `_1` … `_999`, otherwise fall back to a timestamp suffix
(`now` models `int(time.time())`) without any further existence
check. -/
def make_unique_path (ex : String → Bool) (now : Nat) (p : FPath) : FPath :=
  if !ex p.name then p
  else
    match firstFreeCandidate ex p 999 1 with
    | some q => q
    | none => ⟨p.stem ++ "_" ++ toString now, p.ext⟩

/-- `clean_whitespace_lines` (src/main.py lines 121–139) over a
filesystem `fs` mapping file names to contents: a missing source is a
`FileNotFoundError` raised before any output file is opened, otherwise
the returned pair is the output path (the original for `inplace`, a
collision-safe `_cleaned` sibling otherwise) and the content written
to it. -/
def clean_whitespace_lines (fs : String → Option (List Char)) (now : Nat)
    (path : FPath) (inplace : Bool) : Except String (FPath × List Char) :=
  match fs path.name with
  | none => Except.error ("FileNotFoundError: " ++ path.name)
  | some content =>
      let out_path :=
        if inplace then path
        else make_unique_path (fun n => (fs n).isSome) now
          ⟨path.stem ++ "_cleaned", path.ext⟩
      Except.ok (out_path, cleanedContent content)

/-- Sink-file routing of `save_split_logs` (src/main.py lines 157–161):
a level that owns no handle falls back to `other`. -/
def routeLevel (lvl : String) : String :=
  if sinkCategories.contains lvl then lvl else "other"

/-- The write loop of `save_split_logs`: the content each sink `c`
receives from the classified stream, every line written verbatim to
the sink chosen by `routeLevel ∘ classify_line`. -/
def splitSink (lines : List String) (c : String) : List String :=
  match lines with
  | [] => []
  | l :: ls => (if routeLevel (classify_line l) = c then [l] else []) ++ splitSink ls c

/-- The base sink path `{prefix_}{lvl}.log` of `save_split_logs`;
an empty prefix is falsy in Python and adds no underscore. -/
def basePath (pfx : Option String) (lvl : String) : FPath :=
  ⟨(match pfx with
    | some s => if s = "" then "" else s ++ "_"
    | none => "") ++ lvl, ".log"⟩

/-- Sink path chosen by `save_split_logs` for level `lvl`
(src/main.py lines 147–155): the base path made unique — except for
`other`, whose fixed base path is opened without
`make_unique_path`. -/
def sink_path (ex : String → Bool) (now : Nat) (pfx : Option String)
    (lvl : String) : FPath :=
  if lvl = "other" then basePath pfx lvl
  else make_unique_path ex now (basePath pfx lvl)

/-- Outcome of a `save_split_logs` call: the sink files created (all of
them are opened before the line stream is consumed) and either the
per-sink contents or the propagated stream error. -/
structure SplitRun where
  created : List String
  result : Except String (String → List String)

/-- `save_split_logs` (src/main.py lines 142–169).  The incoming
stream is lazy: it is modelled as `Except String (List String)` —
either the lines it will yield or the error it raises at the first
pull.  All seven sinks are opened (and their files created) before the
stream is touched; a stream error then propagates after the sinks
already exist.  Python iterates `set(COLOR_TAGS.keys())` in an
unspecified order; since the seven sink names are pairwise distinct
the chosen paths are order-independent, and `created` lists them in
declaration order. -/
def save_split_logs (ex : String → Bool) (now : Nat) (pfx : Option String)
    (src : Except String (List String)) : SplitRun :=
  { created := sinkCategories.map (fun lvl => (sink_path ex now pfx lvl).name)
    result :=
      match src with
      | Except.error e => Except.error e
      | Except.ok lines => Except.ok (fun c => splitSink lines c) }

/-- Has `LogLoaderThread.stop` been observed at loop iteration `i`?
`stopAt = some k` models the cancellation flag becoming set (from the
other execution context) just before the check of iteration `k`; once
set it stays set. -/
def stopped (stopAt : Option Nat) (i : Nat) : Bool :=
  match stopAt with
  | none => false
  | some k => decide (k ≤ i)

/-- The single payload string of a `Data` message: `''.join(batch)`. -/
def joinBatch (batch : List String) : String :=
  String.join batch

/-- Loop body of `LogLoaderThread.run` (src/main.py lines 224–241).
State: `i` the iteration index, `count` the lines read so far, `batch`
the pending lines, and the list of lines the file handle still has to
yield.  `err = some e` means the handle raises `e` when pulled after
the listed lines (a mid-stream read error); the exception skips the
partial-batch flush, enqueues one `(0, "__ERROR__:" + e)` message, and
the `finally` block then always enqueues `(-1, "__DONE__")`.  A line
is pulled before the stop flag is checked, so a set flag breaks out
after the pull; the flush of a pending partial batch and the
`finally` sentinel still run. -/
def loaderGo (chunk : Nat) (err : Option String) (stopAt : Option Nat) :
    Nat → Nat → List String → List String → List (Int × String)
  | _, count, batch, [] =>
      match err with
      | some e => ((0 : Int), "__ERROR__:" ++ e) :: [((-1 : Int), "__DONE__")]
      | none =>
          (if batch.isEmpty then [] else [((count : Int), joinBatch batch)]) ++
            [((-1 : Int), "__DONE__")]
  | i, count, batch, line :: rest =>
      if stopped stopAt i then
        (if batch.isEmpty then [] else [((count : Int), joinBatch batch)]) ++
          [((-1 : Int), "__DONE__")]
      else
        if chunk ≤ (batch ++ [line]).length then
          ((count + 1 : Nat), joinBatch (batch ++ [line])) ::
            loaderGo chunk err stopAt (i + 1) (count + 1) [] rest
        else loaderGo chunk err stopAt (i + 1) (count + 1) (batch ++ [line]) rest

/-- The full message sequence `LogLoaderThread.run` enqueues for a
session over a source that yields `lines` and then either ends
(`err = none`) or raises (`err = some e`), with the cancellation flag
set before iteration `stopAt` (if ever).  Messages are the raw
`(int, str)` tuples of the source: `Data` is `(count, payload)` with
`count ≥ 1`, a read error is `(0, "__ERROR__:...")`, and the terminal
sentinel of the `finally` block is `(-1, "__DONE__")`. -/
def LogLoaderThread_run (chunk : Nat) (lines : List String) (err : Option String)
    (stopAt : Option Nat) : List (Int × String) :=
  loaderGo chunk err stopAt 0 0 [] lines

/-- A normal 80-character log line with readable text: 24 visible
characters padded with spaces to length 80, no NUL bytes. -/
def line80 : List Char := "OC: Loading kernel cache".data ++ List.replicate 56 ' '

/-- A line as produced by splitting: nonempty, with `\n` allowed only
as its final character. -/
def properLineB (l : List Char) : Bool :=
  !l.isEmpty && l.dropLast.all (fun c => !(c == '\n'))

/-- Does the line end with a newline terminator? -/
def endsNewline (l : List Char) : Bool := l.getLast? == some '\n'

/-- Well-formed line decomposition of a file: every line is proper and
every line but the last is newline-terminated (the last may be an
unterminated final line). -/
def goodLines : List (List Char) → Bool
  | [] => true
  | [l] => properLineB l
  | l :: ls => properLineB l && endsNewline l && goodLines ls

example : classify_line "2023 ERROR x" = "error" := by decide
example : classify_line "ERROR WARN" = "warning" := by decide
example : classify_line "" = "other" := by decide
example : classify_line "hello world" = "other" := by decide
example : classify_line "ErRoR" = "error" := by decide
example : classify_line "ERRORS" = "other" := by decide
example : classify_line "SUCCESS ERROR" = "success" := by decide

example : is_junk_line [] = true := by decide
example : is_junk_line (' ' :: '\t' :: ['\n']) = true := by decide
example : is_junk_line (List.replicate 200 '\x00') = true := by decide
example : is_junk_line (List.replicate 90 ' ') = true := by decide
example : is_junk_line ("OC: boot OK\n".data) = false := by decide
example : is_junk_line ('a' :: List.replicate 100 ' ') = true := by decide

example : pyReadLines "ab\ncd".data = ["ab\n".data, "cd".data] := by decide
example : pyReadLines "ab\r\ncd\r".data = ["ab\n".data, "cd\n".data] := by decide
example : pyReadLines "\n\n".data = ["\n".data, "\n".data] := by decide
example : pyReadLines [] = [] := by decide

example :
    make_unique_path (fun n => n == "a.log") 7 ⟨"a", ".log"⟩ = ⟨"a_1", ".log"⟩ := by
  decide

example : make_unique_path (fun _ => false) 7 ⟨"a", ".log"⟩ = ⟨"a", ".log"⟩ := by
  decide

example :
    LogLoaderThread_run 2 ["a", "b", "c"] none none =
      [((2 : Int), "ab"), ((3 : Int), "c"), ((-1 : Int), "__DONE__")] := by decide

example :
    LogLoaderThread_run 2 ["a", "b"] none none =
      [((2 : Int), "ab"), ((-1 : Int), "__DONE__")] := by decide

example :
    LogLoaderThread_run 500 ["a"] (some "boom") none =
      [((0 : Int), "__ERROR__:boom"), ((-1 : Int), "__DONE__")] := by decide

example :
    LogLoaderThread_run 1 ["a", "b", "c"] none (some 1) =
      [((1 : Int), "a"), ((-1 : Int), "__DONE__")] := by decide

example :
    LogLoaderThread_run 3 ["a", "b", "c"] none (some 2) =
      [((2 : Int), "ab"), ((-1 : Int), "__DONE__")] := by decide

lemma LEVEL_PATTERNS_eq :
    LEVEL_PATTERNS =
      [ruleWARN, ruleINVALID, ruleWARNING, ruleSUCCESS, ruleFATAL, ruleERROR,
       ruleDEBUG, ruleINFO, ruleERR, ruleDBG, ruleMAC, ruleOK] := rfl

lemma loaderGo_error (chunk : Nat) (e : String) :
    ∀ (rest : List String) (i count : Nat) (batch : List String),
      ∃ ds, loaderGo chunk (some e) none i count batch rest =
          ds ++ [((0 : Int), "__ERROR__:" ++ e), ((-1 : Int), "__DONE__")] ∧
        ∀ m ∈ ds, 1 ≤ m.1
  | [], _, _, _ => ⟨[], rfl, by simp⟩
  | l :: rest, i, count, batch => by
      have hstop : stopped none i = false := rfl
      by_cases hc : chunk ≤ batch.length + 1
      · rcases loaderGo_error chunk e rest (i + 1) (count + 1) [] with ⟨ds, hds, hall⟩
        refine ⟨((count + 1 : Nat), joinBatch (batch ++ [l])) :: ds, ?_, ?_⟩
        · simp [loaderGo, hstop, hc, hds]
        · intro m hm
          rcases List.mem_cons.1 hm with rfl | hm'
          · simp
          · exact hall m hm'
      · rcases loaderGo_error chunk e rest (i + 1) (count + 1) (batch ++ [l]) with
          ⟨ds, hds, hall⟩
        exact ⟨ds, by simp [loaderGo, hstop, hc, hds], hall⟩

lemma loaderGo_cancel (chunk : Nat) (err : Option String) (k : Nat) :
    ∀ (rest : List String) (i count : Nat) (batch : List String),
      i ≤ k → k < i + rest.length → count = i → batch.length ≤ count →
      ∃ ds, loaderGo chunk err (some k) i count batch rest =
          ds ++ [((-1 : Int), "__DONE__")] ∧
        ∀ m ∈ ds, 1 ≤ m.1 ∧ m.1 ≤ (k : Int)
  | [], i, count, batch => by
      intro h1 h2 _ _
      exact absurd h2 (by simp; omega)
  | l :: rest, i, count, batch => by
      intro hik hk hci hbc
      rw [List.length_cons] at hk
      by_cases hstop : k ≤ i
      · have hik' : i = k := Nat.le_antisymm hik hstop
        have hs : stopped (some k) i = true := by simp [stopped, hstop]
        by_cases hb : batch.isEmpty
        · exact ⟨[], by simp [loaderGo, hs, hb], by simp⟩
        · refine ⟨[((count : Nat), joinBatch batch)], by simp [loaderGo, hs, hb], ?_⟩
          intro m hm
          rcases List.mem_singleton.1 hm with rfl
          have hb' : batch ≠ [] := by simpa [List.isEmpty_iff] using hb
          have h1 : 1 ≤ batch.length := List.length_pos.2 hb'
          constructor
          · exact_mod_cast by omega
          · exact_mod_cast by omega
      · have hs : stopped (some k) i = false := by simp [stopped, hstop]
        have hik2 : i + 1 ≤ k := by omega
        by_cases hc : chunk ≤ batch.length + 1
        · rcases loaderGo_cancel chunk err k rest (i + 1) (count + 1) [] hik2 (by omega)
            (by omega) (by simp) with ⟨ds, hds, hall⟩
          refine ⟨((count + 1 : Nat), joinBatch (batch ++ [l])) :: ds, ?_, ?_⟩
          · simp [loaderGo, hs, hc, hds]
          · intro m hm
            rcases List.mem_cons.1 hm with rfl | hm'
            · constructor
              · exact_mod_cast by omega
              · exact_mod_cast by omega
            · exact hall m hm'
        · rcases loaderGo_cancel chunk err k rest (i + 1) (count + 1) (batch ++ [l]) hik2
            (by omega) (by omega) (by simp; omega) with ⟨ds, hds, hall⟩
          exact ⟨ds, by simp [loaderGo, hs, hc, hds], hall⟩

/-- C1 counterexample: in a session whose source raises a mid-stream
read error, the `finally` block still enqueues `__DONE__` after the
`__ERROR__` message — so `Error` is not enqueued *instead of* `Done`,
and a further message does follow the `Error` sentinel. -/
theorem C1_counterexample :
    ((0 : Int), "__ERROR__:boom") ∈ LogLoaderThread_run 500 ["x"] (some "boom") none ∧
      LogLoaderThread_run 500 ["x"] (some "boom") none ≠
        [((0 : Int), "__ERROR__:boom")] ∧
      (LogLoaderThread_run 500 ["x"] (some "boom") none).getLast? =
        some ((-1 : Int), "__DONE__") := by decide

/-- C1 amended: in every load session whose source raises a mid-stream
read error (and which is not cancelled), the enqueued sequence is some
`Data` messages (each with a positive line count), then exactly one
`Error` message, then exactly one trailing `Done` sentinel emitted by
the `finally` block; no `Data` message follows the `Error`, and
nothing follows the `Done`.  The pending partial batch is discarded,
not flushed. -/
theorem C1_error_session (chunk : Nat) (lines : List String) (e : String) :
    ∃ ds, LogLoaderThread_run chunk lines (some e) none =
        ds ++ [((0 : Int), "__ERROR__:" ++ e), ((-1 : Int), "__DONE__")] ∧
      ∀ m ∈ ds, 1 ≤ m.1 :=
  loaderGo_error chunk e lines 0 0 []

/-- C2 counterexample: with `chunk = 1` the first `Data` message is
enqueued for the first line; the cancellation flag set before
iteration 1 is observed then, yet the `finally` block still delivers a
`__DONE__` sentinel — contradicting "no `Error`/`Done` is ever
delivered after cancellation". -/
theorem C2_counterexample :
    LogLoaderThread_run 1 ["a", "b", "c"] none (some 1) =
        [((1 : Int), "a"), ((-1 : Int), "__DONE__")] ∧
      ((-1 : Int), "__DONE__") ∈ LogLoaderThread_run 1 ["a", "b", "c"] none (some 1) := by
  decide

/-- C2 amended: if the cancellation flag is set before the producer
has pulled all lines (`k < lines.length`), the producer observes it at
iteration `k` and stops reading: no `Error` message is ever delivered,
every `Data` message carries a line count between 1 and `k` (so no
line beyond the flag is read), but exactly one trailing `Done`
sentinel is still enqueued by the `finally` block (the pending partial
batch, if any, is flushed first).  Consumers must treat
"cancel requested + `Done`" as a clean stop. -/
theorem C2_cancel_session (chunk : Nat) (lines : List String) (err : Option String)
    (k : Nat) (hk : k < lines.length) :
    ∃ ds, LogLoaderThread_run chunk lines err (some k) =
        ds ++ [((-1 : Int), "__DONE__")] ∧
      ∀ m ∈ ds, 1 ≤ m.1 ∧ m.1 ≤ (k : Int) :=
  loaderGo_cancel chunk err k lines 0 0 [] (Nat.zero_le _) (by omega) rfl (Nat.le_refl 0)

theorem C2_cancel_session_witness :
    1 < (["a", "b", "c"] : List String).length ∧
      ∃ ds, LogLoaderThread_run 2 ["a", "b", "c"] none (some 1) =
          ds ++ [((-1 : Int), "__DONE__")] ∧
        ∀ m ∈ ds, 1 ≤ m.1 ∧ m.1 ≤ (1 : Int) :=
  ⟨by decide, C2_cancel_session 2 ["a", "b", "c"] none 1 (by decide)⟩

lemma insertRule_perm (r : Rule) (l : List Rule) : (insertRule r l).Perm (r :: l) := by
  induction l with
  | nil => exact List.Perm.refl _
  | cons x xs ih =>
      simp only [insertRule]
      split
      · exact List.Perm.refl _
      · exact (ih.cons x).trans (List.Perm.swap _ _ _)

lemma sortRules_perm (l : List Rule) : (sortRules l).Perm l := by
  induction l with
  | nil => exact List.Perm.refl _
  | cons x xs ih => exact (insertRule_perm x (sortRules xs)).trans (ih.cons x)

lemma lvl_mem_sinkCategories {r : Rule} (h : r ∈ LEVEL_MAP) :
    r.lvl ∈ sinkCategories := by
  simp only [LEVEL_MAP, List.mem_cons, List.mem_singleton, List.not_mem_nil, or_false] at h
  rcases h with rfl | rfl | rfl | rfl | rfl | rfl | rfl | rfl | rfl | rfl | rfl | rfl <;>
    decide

/-- C10: `classify_line` is total and always lands in the seven fixed
categories, so the `lvl not in handles` fallback of `save_split_logs`
never rewrites the level: `routeLevel` is the identity on every
classification result, and the sink written is always one opened
before the stream was consumed. -/
theorem C10_classify_total (line : String) :
    classify_line line ∈ sinkCategories ∧
      routeLevel (classify_line line) = classify_line line := by
  have h : classify_line line ∈ sinkCategories := by
    by_cases he : line = ""
    · simp only [classify_line, he, if_pos]; decide
    · cases hf : LEVEL_PATTERNS.find? (fun r => r.matchFn line) with
      | none =>
          simp only [classify_line, he, if_neg, hf]
          decide
      | some r =>
          have hr : r ∈ sortRules LEVEL_MAP := List.mem_of_find?_eq_some hf
          have hr' : r ∈ LEVEL_MAP := ((sortRules_perm LEVEL_MAP).mem_iff).1 hr
          have hc : classify_line line = r.lvl := by
            simp [classify_line, he, hf]
          rw [hc]
          exact lvl_mem_sinkCategories hr'
  refine ⟨h, ?_⟩
  simp [routeLevel, h]

/-- C3 counterexample: the line `"ERROR WARN"` contains the
word-bounded token `ERROR`, yet `classify_line` does not return
`error` — the longer pattern `\bWARN(?:ING)?\b` is tried first and
wins, so surrounding registered tokens do matter. -/
theorem C3_counterexample :
    searchToken "error" "ERROR WARN" = true ∧
      classify_line "ERROR WARN" = "warning" ∧
      classify_line "ERROR WARN" ≠ "error" := by decide

/-- C3 amended: every line containing the word-bounded token `ERROR`
(any case) classifies as `error`, provided it does not also match one
of the longer-sourced patterns that map elsewhere: `\bWARN(?:ING)?\b`
(i.e. a word-bounded `WARN` or `WARNING`) or `\bSUCCESS\b`. -/
theorem C3_error_token (line : String)
    (hErr : searchToken "error" line = true)
    (hWarn : searchToken "warn" line = false)
    (hWarning : searchToken "warning" line = false)
    (hSuccess : searchToken "success" line = false) :
    classify_line line = "error" := by
  have hne : line ≠ "" := by
    intro h; subst h; exact absurd hErr (by decide)
  cases hI : searchToken "invalid" line <;> cases hF : searchToken "fatal" line <;>
    simp [classify_line, hne, LEVEL_PATTERNS_eq, List.find?, ruleWARN, ruleINVALID,
      ruleWARNING, ruleSUCCESS, ruleFATAL, ruleERROR, hWarn, hWarning, hSuccess,
      hI, hF, hErr]

/-- C4: on a line matched by two or more registered rules,
`classify_line` returns the level of the matching rule whose pattern
source text is longest, ties between equal-length sources broken by
declaration order in `LEVEL_MAP`.  The rule is identified by its
declaration index `i`; the hypotheses say that it matches, that no
rule with a strictly longer source matches, and that no
earlier-declared rule with a source of equal length matches. -/
theorem C4_longest_pattern_wins (line : String) (i : Fin LEVEL_MAP.length)
    (_hmulti : 2 ≤ (LEVEL_MAP.filter (fun r => r.matchFn line)).length)
    (hm : (LEVEL_MAP.get i).matchFn line = true)
    (hlong : ∀ j : Fin LEVEL_MAP.length,
      (LEVEL_MAP.get i).src.length < (LEVEL_MAP.get j).src.length →
      (LEVEL_MAP.get j).matchFn line = false)
    (htie : ∀ j : Fin LEVEL_MAP.length, (j : Nat) < (i : Nat) →
      (LEVEL_MAP.get j).src.length = (LEVEL_MAP.get i).src.length →
      (LEVEL_MAP.get j).matchFn line = false) :
    classify_line line = (LEVEL_MAP.get i).lvl := by
  have hne : line ≠ "" := by
    intro h; subst h
    revert hm; fin_cases i <;> decide
  fin_cases i
  · -- FATAL, declaration index 0, source length 9
    have a1 : ruleWARN.matchFn line = false := hlong ⟨4, by decide⟩ (by decide)
    have a2 : ruleINVALID.matchFn line = false := hlong ⟨3, by decide⟩ (by decide)
    have a3 : ruleWARNING.matchFn line = false := hlong ⟨5, by decide⟩ (by decide)
    have a4 : ruleSUCCESS.matchFn line = false := hlong ⟨9, by decide⟩ (by decide)
    have hm' : ruleFATAL.matchFn line = true := hm
    have hfind : LEVEL_PATTERNS.find? (fun r => r.matchFn line) = some ruleFATAL := by
      simp [LEVEL_PATTERNS_eq, List.find?, a1, a2, a3, a4, hm']
    show classify_line line = "error"
    simp [classify_line, hne, hfind, ruleFATAL]
  · -- ERROR, declaration index 1, source length 9
    have a1 : ruleWARN.matchFn line = false := hlong ⟨4, by decide⟩ (by decide)
    have a2 : ruleINVALID.matchFn line = false := hlong ⟨3, by decide⟩ (by decide)
    have a3 : ruleWARNING.matchFn line = false := hlong ⟨5, by decide⟩ (by decide)
    have a4 : ruleSUCCESS.matchFn line = false := hlong ⟨9, by decide⟩ (by decide)
    have a5 : ruleFATAL.matchFn line = false := htie ⟨0, by decide⟩ (by decide) (by decide)
    have hm' : ruleERROR.matchFn line = true := hm
    have hfind : LEVEL_PATTERNS.find? (fun r => r.matchFn line) = some ruleERROR := by
      simp [LEVEL_PATTERNS_eq, List.find?, a1, a2, a3, a4, a5, hm']
    show classify_line line = "error"
    simp [classify_line, hne, hfind, ruleERROR]
  · -- ERR, declaration index 2, source length 7
    have a1 : ruleWARN.matchFn line = false := hlong ⟨4, by decide⟩ (by decide)
    have a2 : ruleINVALID.matchFn line = false := hlong ⟨3, by decide⟩ (by decide)
    have a3 : ruleWARNING.matchFn line = false := hlong ⟨5, by decide⟩ (by decide)
    have a4 : ruleSUCCESS.matchFn line = false := hlong ⟨9, by decide⟩ (by decide)
    have a5 : ruleFATAL.matchFn line = false := hlong ⟨0, by decide⟩ (by decide)
    have a6 : ruleERROR.matchFn line = false := hlong ⟨1, by decide⟩ (by decide)
    have a7 : ruleDEBUG.matchFn line = false := hlong ⟨8, by decide⟩ (by decide)
    have a8 : ruleINFO.matchFn line = false := hlong ⟨6, by decide⟩ (by decide)
    have hm' : ruleERR.matchFn line = true := hm
    have hfind : LEVEL_PATTERNS.find? (fun r => r.matchFn line) = some ruleERR := by
      simp [LEVEL_PATTERNS_eq, List.find?, a1, a2, a3, a4, a5, a6, a7, a8, hm']
    show classify_line line = "error"
    simp [classify_line, hne, hfind, ruleERR]
  · -- INVALID, declaration index 3, source length 11
    have a1 : ruleWARN.matchFn line = false := hlong ⟨4, by decide⟩ (by decide)
    have hm' : ruleINVALID.matchFn line = true := hm
    have hfind : LEVEL_PATTERNS.find? (fun r => r.matchFn line) = some ruleINVALID := by
      simp [LEVEL_PATTERNS_eq, List.find?, a1, hm']
    show classify_line line = "error"
    simp [classify_line, hne, hfind, ruleINVALID]
  · -- WARN(?:ING)?, declaration index 4, source length 16
    have hm' : ruleWARN.matchFn line = true := hm
    have hfind : LEVEL_PATTERNS.find? (fun r => r.matchFn line) = some ruleWARN := by
      simp [LEVEL_PATTERNS_eq, List.find?, hm']
    show classify_line line = "warning"
    simp [classify_line, hne, hfind, ruleWARN]
  · -- WARNING, declaration index 5, source length 11
    have a1 : ruleWARN.matchFn line = false := hlong ⟨4, by decide⟩ (by decide)
    have a2 : ruleINVALID.matchFn line = false := htie ⟨3, by decide⟩ (by decide) (by decide)
    have hm' : ruleWARNING.matchFn line = true := hm
    have hfind : LEVEL_PATTERNS.find? (fun r => r.matchFn line) = some ruleWARNING := by
      simp [LEVEL_PATTERNS_eq, List.find?, a1, a2, hm']
    show classify_line line = "warning"
    simp [classify_line, hne, hfind, ruleWARNING]
  · -- INFO, declaration index 6, source length 8
    have a1 : ruleWARN.matchFn line = false := hlong ⟨4, by decide⟩ (by decide)
    have a2 : ruleINVALID.matchFn line = false := hlong ⟨3, by decide⟩ (by decide)
    have a3 : ruleWARNING.matchFn line = false := hlong ⟨5, by decide⟩ (by decide)
    have a4 : ruleSUCCESS.matchFn line = false := hlong ⟨9, by decide⟩ (by decide)
    have a5 : ruleFATAL.matchFn line = false := hlong ⟨0, by decide⟩ (by decide)
    have a6 : ruleERROR.matchFn line = false := hlong ⟨1, by decide⟩ (by decide)
    have a7 : ruleDEBUG.matchFn line = false := hlong ⟨8, by decide⟩ (by decide)
    have hm' : ruleINFO.matchFn line = true := hm
    have hfind : LEVEL_PATTERNS.find? (fun r => r.matchFn line) = some ruleINFO := by
      simp [LEVEL_PATTERNS_eq, List.find?, a1, a2, a3, a4, a5, a6, a7, hm']
    show classify_line line = "info"
    simp [classify_line, hne, hfind, ruleINFO]
  · -- DBG, declaration index 7, source length 7
    have a1 : ruleWARN.matchFn line = false := hlong ⟨4, by decide⟩ (by decide)
    have a2 : ruleINVALID.matchFn line = false := hlong ⟨3, by decide⟩ (by decide)
    have a3 : ruleWARNING.matchFn line = false := hlong ⟨5, by decide⟩ (by decide)
    have a4 : ruleSUCCESS.matchFn line = false := hlong ⟨9, by decide⟩ (by decide)
    have a5 : ruleFATAL.matchFn line = false := hlong ⟨0, by decide⟩ (by decide)
    have a6 : ruleERROR.matchFn line = false := hlong ⟨1, by decide⟩ (by decide)
    have a7 : ruleDEBUG.matchFn line = false := hlong ⟨8, by decide⟩ (by decide)
    have a8 : ruleINFO.matchFn line = false := hlong ⟨6, by decide⟩ (by decide)
    have a9 : ruleERR.matchFn line = false := htie ⟨2, by decide⟩ (by decide) (by decide)
    have hm' : ruleDBG.matchFn line = true := hm
    have hfind : LEVEL_PATTERNS.find? (fun r => r.matchFn line) = some ruleDBG := by
      simp [LEVEL_PATTERNS_eq, List.find?, a1, a2, a3, a4, a5, a6, a7, a8, a9, hm']
    show classify_line line = "debug"
    simp [classify_line, hne, hfind, ruleDBG]
  · -- DEBUG, declaration index 8, source length 9
    have a1 : ruleWARN.matchFn line = false := hlong ⟨4, by decide⟩ (by decide)
    have a2 : ruleINVALID.matchFn line = false := hlong ⟨3, by decide⟩ (by decide)
    have a3 : ruleWARNING.matchFn line = false := hlong ⟨5, by decide⟩ (by decide)
    have a4 : ruleSUCCESS.matchFn line = false := hlong ⟨9, by decide⟩ (by decide)
    have a5 : ruleFATAL.matchFn line = false := htie ⟨0, by decide⟩ (by decide) (by decide)
    have a6 : ruleERROR.matchFn line = false := htie ⟨1, by decide⟩ (by decide) (by decide)
    have hm' : ruleDEBUG.matchFn line = true := hm
    have hfind : LEVEL_PATTERNS.find? (fun r => r.matchFn line) = some ruleDEBUG := by
      simp [LEVEL_PATTERNS_eq, List.find?, a1, a2, a3, a4, a5, a6, hm']
    show classify_line line = "debug"
    simp [classify_line, hne, hfind, ruleDEBUG]
  · -- SUCCESS, declaration index 9, source length 11
    have a1 : ruleWARN.matchFn line = false := hlong ⟨4, by decide⟩ (by decide)
    have a2 : ruleINVALID.matchFn line = false := htie ⟨3, by decide⟩ (by decide) (by decide)
    have a3 : ruleWARNING.matchFn line = false := htie ⟨5, by decide⟩ (by decide) (by decide)
    have hm' : ruleSUCCESS.matchFn line = true := hm
    have hfind : LEVEL_PATTERNS.find? (fun r => r.matchFn line) = some ruleSUCCESS := by
      simp [LEVEL_PATTERNS_eq, List.find?, a1, a2, a3, hm']
    show classify_line line = "success"
    simp [classify_line, hne, hfind, ruleSUCCESS]
  · -- OK, declaration index 10, source length 6
    have a1 : ruleWARN.matchFn line = false := hlong ⟨4, by decide⟩ (by decide)
    have a2 : ruleINVALID.matchFn line = false := hlong ⟨3, by decide⟩ (by decide)
    have a3 : ruleWARNING.matchFn line = false := hlong ⟨5, by decide⟩ (by decide)
    have a4 : ruleSUCCESS.matchFn line = false := hlong ⟨9, by decide⟩ (by decide)
    have a5 : ruleFATAL.matchFn line = false := hlong ⟨0, by decide⟩ (by decide)
    have a6 : ruleERROR.matchFn line = false := hlong ⟨1, by decide⟩ (by decide)
    have a7 : ruleDEBUG.matchFn line = false := hlong ⟨8, by decide⟩ (by decide)
    have a8 : ruleINFO.matchFn line = false := hlong ⟨6, by decide⟩ (by decide)
    have a9 : ruleERR.matchFn line = false := hlong ⟨2, by decide⟩ (by decide)
    have a10 : ruleDBG.matchFn line = false := hlong ⟨7, by decide⟩ (by decide)
    have a11 : ruleMAC.matchFn line = false := hlong ⟨11, by decide⟩ (by decide)
    have hm' : ruleOK.matchFn line = true := hm
    have hfind : LEVEL_PATTERNS.find? (fun r => r.matchFn line) = some ruleOK := by
      simp [LEVEL_PATTERNS_eq, List.find?, a1, a2, a3, a4, a5, a6, a7, a8, a9, a10,
        a11, hm']
    show classify_line line = "success"
    simp [classify_line, hne, hfind, ruleOK]
  · -- MAC, declaration index 11, source length 7
    have a1 : ruleWARN.matchFn line = false := hlong ⟨4, by decide⟩ (by decide)
    have a2 : ruleINVALID.matchFn line = false := hlong ⟨3, by decide⟩ (by decide)
    have a3 : ruleWARNING.matchFn line = false := hlong ⟨5, by decide⟩ (by decide)
    have a4 : ruleSUCCESS.matchFn line = false := hlong ⟨9, by decide⟩ (by decide)
    have a5 : ruleFATAL.matchFn line = false := hlong ⟨0, by decide⟩ (by decide)
    have a6 : ruleERROR.matchFn line = false := hlong ⟨1, by decide⟩ (by decide)
    have a7 : ruleDEBUG.matchFn line = false := hlong ⟨8, by decide⟩ (by decide)
    have a8 : ruleINFO.matchFn line = false := hlong ⟨6, by decide⟩ (by decide)
    have a9 : ruleERR.matchFn line = false := htie ⟨2, by decide⟩ (by decide) (by decide)
    have a10 : ruleDBG.matchFn line = false := htie ⟨7, by decide⟩ (by decide) (by decide)
    have hm' : ruleMAC.matchFn line = true := hm
    have hfind : LEVEL_PATTERNS.find? (fun r => r.matchFn line) = some ruleMAC := by
      simp [LEVEL_PATTERNS_eq, List.find?, a1, a2, a3, a4, a5, a6, a7, a8, a9, a10, hm']
    show classify_line line = "platform-info"
    simp [classify_line, hne, hfind, ruleMAC]

theorem C4_longest_pattern_wins_witness :
    2 ≤ (LEVEL_MAP.filter (fun r => r.matchFn "SUCCESS ERROR")).length ∧
      classify_line "SUCCESS ERROR" = "success" :=
  ⟨by decide,
    C4_longest_pattern_wins "SUCCESS ERROR" ⟨9, by decide⟩ (by decide) (by decide)
      (by decide) (by decide)⟩

theorem C3_error_token_witness :
    searchToken "error" "12:00 eRRor: boot failed" = true ∧
      searchToken "warn" "12:00 eRRor: boot failed" = false ∧
      searchToken "warning" "12:00 eRRor: boot failed" = false ∧
      searchToken "success" "12:00 eRRor: boot failed" = false ∧
      classify_line "12:00 eRRor: boot failed" = "error" :=
  ⟨by decide, by decide, by decide, by decide,
    C3_error_token "12:00 eRRor: boot failed" (by decide) (by decide) (by decide)
      (by decide)⟩

lemma routeLevel_mem (lvl : String) : routeLevel lvl ∈ sinkCategories := by
  by_cases h : sinkCategories.contains lvl
  · have hm : lvl ∈ sinkCategories := List.elem_iff.1 h
    have he : routeLevel lvl = lvl := by simp [routeLevel, hm]
    rw [he]
    exact hm
  · have hm : lvl ∉ sinkCategories := fun hmem => h (List.elem_iff.2 hmem)
    have he : routeLevel lvl = "other" := by simp [routeLevel, hm]
    rw [he]
    decide

lemma flatten_map_routeCons (r : String) (l : String) (f : String → List String) :
    ∀ cats : List String, cats.Nodup → r ∈ cats →
      ((cats.map (fun c => (if r = c then [l] else []) ++ f c)).flatten).Perm
        (l :: (cats.map f).flatten)
  | [], _, hr => absurd hr (List.not_mem_nil r)
  | c :: cs, hnd, hr => by
      by_cases hrc : r = c
      · subst hrc
        have hnotin : r ∉ cs := (List.nodup_cons.1 hnd).1
        have hmap : cs.map (fun c => (if r = c then [l] else []) ++ f c) = cs.map f := by
          apply List.map_congr_left
          intro x hx
          have hne : r ≠ x := fun h => hnotin (h ▸ hx)
          simp [hne]
        simp [hmap]
      · have hr' : r ∈ cs := by
          rcases List.mem_cons.1 hr with h | h
          · exact absurd h hrc
          · exact h
        have ih := flatten_map_routeCons r l f cs (List.nodup_cons.1 hnd).2 hr'
        simp only [List.map_cons, List.flatten_cons, if_neg hrc, List.nil_append]
        exact (ih.append_left (f c)).trans List.perm_middle

lemma flatten_splitSink (cats : List String) (hnd : cats.Nodup)
    (hcover : ∀ l : String, routeLevel (classify_line l) ∈ cats) :
    ∀ lines : List String, ((cats.map (fun c => splitSink lines c)).flatten).Perm lines := by
  intro lines
  induction lines with
  | nil =>
      have h : cats.map (fun c => splitSink ([] : List String) c) =
          cats.map (fun _ => ([] : List String)) := rfl
      rw [h]
      simp
  | cons l ls ih =>
      have h : cats.map (fun c => splitSink (l :: ls) c) =
          cats.map (fun c =>
            (if routeLevel (classify_line l) = c then [l] else []) ++ splitSink ls c) := rfl
      rw [h]
      exact (flatten_map_routeCons (routeLevel (classify_line l)) l
        (fun c => splitSink ls c) cats hnd (hcover l)).trans (ih.cons l)

/-- C5: for every finite input stream, `save_split_logs` succeeds and
the concatenation of the seven produced sink contents is a permutation
of the input lines — no line dropped, none duplicated, each written
verbatim to exactly one sink. -/
theorem C5_split_round_trip (lines : List String) (ex : String → Bool) (now : Nat)
    (pfx : Option String) :
    ∃ f, (save_split_logs ex now pfx (Except.ok lines)).result = Except.ok f ∧
      ((sinkCategories.map f).flatten).Perm lines := by
  refine ⟨fun c => splitSink lines c, rfl, ?_⟩
  exact flatten_splitSink sinkCategories (by decide)
    (fun l => routeLevel_mem (classify_line l)) lines

lemma firstFreeCandidate_free (ex : String → Bool) (p : FPath) :
    ∀ (fuel i : Nat) (q : FPath),
      firstFreeCandidate ex p fuel i = some q → ex q.name = false
  | 0, _, _ => by
      intro h
      exact absurd h (by simp [firstFreeCandidate])
  | fuel + 1, i, q => by
      intro h
      by_cases hx : ex (numberedCandidate p i).name
      · have he : firstFreeCandidate ex p (fuel + 1) i =
            firstFreeCandidate ex p fuel (i + 1) := by
          simp [firstFreeCandidate, hx]
        rw [he] at h
        exact firstFreeCandidate_free ex p fuel (i + 1) q h
      · have he : firstFreeCandidate ex p (fuel + 1) i =
            some (numberedCandidate p i) := by
          simp [firstFreeCandidate, hx]
        rw [he] at h
        cases h
        simpa using hx

lemma firstFreeCandidate_isSome (ex : String → Bool) (p : FPath) :
    ∀ (fuel i j : Nat), i ≤ j → j < i + fuel →
      ex (numberedCandidate p j).name = false →
      (firstFreeCandidate ex p fuel i).isSome = true
  | 0, i, j => by
      intro h1 h2 _
      exact absurd h2 (by omega)
  | fuel + 1, i, j => by
      intro h1 h2 h3
      by_cases hx : ex (numberedCandidate p i).name
      · have hne : i ≠ j := by
          intro h
          subst h
          rw [h3] at hx
          exact absurd hx (by simp)
        have he : firstFreeCandidate ex p (fuel + 1) i =
            firstFreeCandidate ex p fuel (i + 1) := by
          simp [firstFreeCandidate, hx]
        rw [he]
        exact firstFreeCandidate_isSome ex p fuel (i + 1) j (by omega) (by omega) h3
      · simp [firstFreeCandidate, hx]

/-- C6 counterexample: after a first `save_split_logs` run into an
empty directory with prefix `app`, a second run with the same prefix
chooses for the `other` sink the very path `app_other.log` that the
first run created — the `other` sink bypasses `make_unique_path` and
is silently overwritten. -/
theorem C6_counterexample :
    (sink_path
        (fun n => (sinkCategories.map
          (fun lvl => (sink_path (fun _ => false) 0 (some "app") lvl).name)).contains n)
        0 (some "app") "other").name = "app_other.log" ∧
      (sinkCategories.map
          (fun lvl => (sink_path (fun _ => false) 0 (some "app") lvl).name)).contains
        "app_other.log" = true := by decide

/-- C6 amended: for every category sink except `other`, the path
chosen by the second run differs from every already-existing path,
provided some numbered candidate `_1` … `_999` is still free (the
timestamp fallback after 999 collisions performs no existence check,
and the `other` sink reuses its fixed path unconditionally). -/
theorem C6_no_overwrite (ex : String → Bool) (now : Nat) (pfx : Option String)
    (lvl : String) (_hmem : lvl ∈ sinkCategories) (hno : lvl ≠ "other")
    (hfree : ∃ i, 1 ≤ i ∧ i ≤ 999 ∧
      ex (numberedCandidate (basePath pfx lvl) i).name = false) :
    ex (sink_path ex now pfx lvl).name = false := by
  have hs : sink_path ex now pfx lvl = make_unique_path ex now (basePath pfx lvl) := by
    simp [sink_path, hno]
  rw [hs]
  by_cases hb : ex (basePath pfx lvl).name
  · rcases hfree with ⟨i, h1, h2, h3⟩
    have hsome := firstFreeCandidate_isSome ex (basePath pfx lvl) 999 1 i h1 (by omega) h3
    cases hq : firstFreeCandidate ex (basePath pfx lvl) 999 1 with
    | none => rw [hq] at hsome; simp at hsome
    | some q =>
        have hfree' := firstFreeCandidate_free ex (basePath pfx lvl) 999 1 q hq
        simp [make_unique_path, hb, hq, hfree']
  · simp [make_unique_path, hb]

theorem C6_no_overwrite_witness :
    ("error" ∈ sinkCategories ∧ ("error" : String) ≠ "other" ∧
      (fun n => n == "error.log") (numberedCandidate (basePath none "error") 1).name =
        false) ∧
      (fun n => n == "error.log") (sink_path (fun n => n == "error.log") 0 none
        "error").name = false :=
  ⟨⟨by decide, by decide, by decide⟩,
    C6_no_overwrite (fun n => n == "error.log") 0 none "error" (by decide) (by decide)
      ⟨1, by decide, by decide, by decide⟩⟩

/-- C7 counterexample: `save_split_logs` opens all seven sinks before
the lazy line stream is first pulled, so when the source cannot be
opened (the stream raises at the first pull) the sink files have
already been created — the operation fails but leaves the (empty)
sinks behind. -/
theorem C7_counterexample :
    (save_split_logs (fun _ => false) 0 none
        (Except.error "could not open source")).created ≠ [] ∧
      (save_split_logs (fun _ => false) 0 none
        (Except.error "could not open source")).result =
        Except.error "could not open source" := by
  constructor
  · decide
  · rfl

/-- C7 amended: a missing source is fatal with no partial output for
the cleaner — `clean_whitespace_lines` raises `FileNotFoundError`
before any output file is created; `save_split_logs`, however, opens
its seven sink files before consuming the stream, so a source that
fails to open still leaves all seven created sinks behind while the
error propagates. -/
theorem C7_file_not_found :
    (∀ (fs : String → Option (List Char)) (now : Nat) (path : FPath) (inplace : Bool),
      fs path.name = none →
      clean_whitespace_lines fs now path inplace =
        Except.error ("FileNotFoundError: " ++ path.name)) ∧
    (∀ (ex : String → Bool) (now : Nat) (pfx : Option String) (e : String),
      (save_split_logs ex now pfx (Except.error e)).result = Except.error e ∧
      (save_split_logs ex now pfx (Except.error e)).created.length = 7) := by
  constructor
  · intro fs now path inplace h
    simp [clean_whitespace_lines, h]
  · intro ex now pfx e
    refine ⟨rfl, ?_⟩
    simp [save_split_logs]
    rfl

theorem C7_file_not_found_witness :
    (fun _ => (none : Option (List Char))) (FPath.name ⟨"missing", ".log"⟩) = none ∧
      clean_whitespace_lines (fun _ => none) 0 ⟨"missing", ".log"⟩ false =
        Except.error ("FileNotFoundError: " ++ FPath.name ⟨"missing", ".log"⟩) :=
  ⟨rfl, C7_file_not_found.1 (fun _ => none) 0 ⟨"missing", ".log"⟩ false rfl⟩

/-- C9: `is_junk_line` is true on every all-whitespace line, on the
line of 200 NUL bytes and on the line of 90 spaces, and false on a
normal 80-character log line with readable text (no NULs, at least 5
visible characters). -/
theorem C9_is_junk_line_cases :
    (∀ l : List Char, (∀ c ∈ l, pyIsSpace c = true) → is_junk_line l = true) ∧
    is_junk_line (List.replicate 200 '\x00') = true ∧
    is_junk_line (List.replicate 90 ' ') = true ∧
    (line80.length = 80 ∧ line80.count '\x00' = 0 ∧
      5 ≤ (line80.filter (fun c => !pyIsSpace c)).length ∧
      is_junk_line line80 = false) := by
  refine ⟨?_, by decide, by decide, by decide, by decide, by decide, by decide⟩
  intro l hl
  cases l with
  | nil => decide
  | cons c cs =>
      have hall : ∀ x ∈ rstripNLCR (c :: cs), pyIsSpace x = true := by
        intro x hx
        refine hl x ?_
        have h0 : x ∈ List.dropWhile (fun c => c == '\n' || c == '\r')
            (c :: cs).reverse := List.mem_reverse.1 hx
        have h1 : x ∈ (c :: cs).reverse :=
          List.Sublist.mem h0 (List.dropWhile_sublist _)
        exact List.mem_reverse.1 h1
      have hstrip : stripWS (rstripNLCR (c :: cs)) = [] := by
        have h1 : List.dropWhile pyIsSpace (rstripNLCR (c :: cs)) = [] :=
          List.dropWhile_eq_nil_iff.2 hall
        simp [stripWS, h1]
      simp [is_junk_line, hstrip]

theorem C9_is_junk_line_cases_witness :
    (∀ c ∈ ([' ', ' ', '\t'] : List Char), pyIsSpace c = true) ∧
      is_junk_line [' ', ' ', '\t'] = true :=
  ⟨by decide, C9_is_junk_line_cases.1 [' ', ' ', '\t'] (by decide)⟩

lemma goodLines_cons {l : List Char} {ls : List (List Char)}
    (h1 : properLineB l = true) (h2 : endsNewline l = true)
    (h3 : goodLines ls = true) : goodLines (l :: ls) = true := by
  cases ls with
  | nil => simpa [goodLines] using h1
  | cons m ms => simp [goodLines, h1, h2, h3]

lemma goodLines_cons_cons {l m : List Char} {ms : List (List Char)}
    (h : goodLines (l :: m :: ms) = true) :
    properLineB l = true ∧ endsNewline l = true ∧ goodLines (m :: ms) = true := by
  have h' : (properLineB l = true ∧ endsNewline l = true) ∧
      goodLines (m :: ms) = true := by
    simpa [goodLines, Bool.and_eq_true] using h
  exact ⟨h'.1.1, h'.1.2, h'.2⟩

lemma properLineB_cons_cons {c d : Char} {rest : List Char}
    (h : properLineB (c :: d :: rest) = true) :
    c ≠ '\n' ∧ properLineB (d :: rest) = true := by
  simp only [properLineB, List.isEmpty_cons, Bool.not_false, Bool.true_and,
    List.dropLast_cons₂, List.all_cons, Bool.and_eq_true, Bool.not_eq_true'] at h
  refine ⟨by simpa using h.1, ?_⟩
  simp only [properLineB, List.isEmpty_cons, Bool.not_false, Bool.true_and]
  simpa [Bool.not_eq_true'] using h.2

lemma consLine_good (c : Char) (ls : List (List Char)) (h : goodLines ls = true) :
    goodLines (consLine c ls) = true := by
  by_cases hc : c = '\n'
  · subst hc
    have he : consLine '\n' ls = ['\n'] :: ls := by simp [consLine]
    rw [he]
    exact goodLines_cons (by decide) (by decide) h
  · cases ls with
    | nil =>
        have he : consLine c [] = [[c]] := by simp [consLine, hc]
        rw [he]
        simp [goodLines, properLineB]
    | cons m ms =>
        have he : consLine c (m :: ms) = (c :: m) :: ms := by simp [consLine, hc]
        rw [he]
        cases ms with
        | nil =>
            have h1 : properLineB m = true := by simpa [goodLines] using h
            have hm : m ≠ [] := by
              intro hemp
              subst hemp
              exact absurd h1 (by decide)
            cases m with
            | nil => exact absurd rfl hm
            | cons x xs =>
                have h1' : (x :: xs).dropLast.all (fun c => !(c == '\n')) = true := by
                  simpa [properLineB] using h1
                simp [goodLines, properLineB, List.dropLast_cons₂, hc, h1']
        | cons n ns =>
            obtain ⟨h1, h2, h3⟩ := goodLines_cons_cons h
            have hm : m ≠ [] := by
              intro hemp
              subst hemp
              exact absurd h1 (by decide)
            cases m with
            | nil => exact absurd rfl hm
            | cons x xs =>
                have h1' : (x :: xs).dropLast.all (fun c => !(c == '\n')) = true := by
                  simpa [properLineB] using h1
                have h2' : endsNewline (c :: x :: xs) = true := by
                  simpa [endsNewline, List.getLast?_cons_cons] using h2
                refine goodLines_cons ?_ h2' h3
                simp [properLineB, List.dropLast_cons₂, hc, h1']

lemma goodLines_splitNL (s : List Char) : goodLines (splitNL s) = true := by
  induction s with
  | nil => rfl
  | cons c cs ih => exact consLine_good c (splitNL cs) ih

lemma goodLines_filter (p : List Char → Bool) :
    ∀ ls : List (List Char), goodLines ls = true → goodLines (ls.filter p) = true
  | [] => fun _ => rfl
  | [l] => by
      intro h
      have h1 : properLineB l = true := by simpa [goodLines] using h
      by_cases hp : p l
      · have he : [l].filter p = [l] := by simp [List.filter, hp]
        rw [he]
        simpa [goodLines] using h1
      · have he : [l].filter p = [] := by simp [List.filter, hp]
        rw [he]
        rfl
  | l :: m :: ms => by
      intro h
      obtain ⟨h1, h2, h3⟩ := goodLines_cons_cons h
      have ih := goodLines_filter p (m :: ms) h3
      by_cases hp : p l
      · have he : (l :: m :: ms).filter p = l :: (m :: ms).filter p := by
          simp [List.filter, hp]
        rw [he]
        exact goodLines_cons h1 h2 ih
      · have he : (l :: m :: ms).filter p = (m :: ms).filter p := by
          simp [List.filter, hp]
        rw [he]
        exact ih

lemma splitNL_single : ∀ l : List Char, properLineB l = true → splitNL l = [l]
  | [] => fun h => absurd h (by decide)
  | [c] => by
      intro _
      by_cases hc : c = '\n' <;> simp [splitNL, consLine, hc]
  | c :: d :: rest => by
      intro h
      obtain ⟨hc, h'⟩ := properLineB_cons_cons h
      have ih := splitNL_single (d :: rest) h'
      show consLine c (splitNL (d :: rest)) = [c :: d :: rest]
      rw [ih]
      simp [consLine, hc]

lemma splitNL_append : ∀ l : List Char, properLineB l = true → endsNewline l = true →
    ∀ t : List Char, splitNL (l ++ t) = l :: splitNL t
  | [] => fun h _ => absurd h (by decide)
  | [c] => by
      intro _ h2 t
      have hc : c = '\n' := by simpa [endsNewline] using h2
      subst hc
      show consLine '\n' (splitNL t) = ['\n'] :: splitNL t
      simp [consLine]
  | c :: d :: rest => by
      intro h1 h2 t
      obtain ⟨hc, h1'⟩ := properLineB_cons_cons h1
      have h2' : endsNewline (d :: rest) = true := by
        simpa [endsNewline, List.getLast?_cons_cons] using h2
      have ih := splitNL_append (d :: rest) h1' h2' t
      show consLine c (splitNL ((d :: rest) ++ t)) = (c :: d :: rest) :: splitNL t
      rw [ih]
      simp [consLine, hc]

lemma splitNL_flatten : ∀ ls : List (List Char), goodLines ls = true →
    splitNL ls.flatten = ls
  | [] => fun _ => rfl
  | [l] => by
      intro h
      have h1 : properLineB l = true := by simpa [goodLines] using h
      show splitNL (l ++ []) = [l]
      rw [List.append_nil]
      exact splitNL_single l h1
  | l :: m :: ms => by
      intro h
      obtain ⟨h1, h2, h3⟩ := goodLines_cons_cons h
      have ih := splitNL_flatten (m :: ms) h3
      show splitNL (l ++ (m :: ms).flatten) = l :: m :: ms
      rw [splitNL_append l h1 h2, ih]

lemma mem_consLine {x c : Char} {ls : List (List Char)} {l : List Char}
    (hl : l ∈ consLine c ls) (hx : x ∈ l) : x = c ∨ ∃ m ∈ ls, x ∈ m := by
  by_cases hc : c = '\n'
  · subst hc
    rw [show consLine '\n' ls = ['\n'] :: ls from by simp [consLine]] at hl
    rcases List.mem_cons.1 hl with rfl | hl'
    · left; simpa using hx
    · right; exact ⟨l, hl', hx⟩
  · cases ls with
    | nil =>
        rw [show consLine c [] = [[c]] from by simp [consLine, hc]] at hl
        rcases List.mem_cons.1 hl with rfl | hl'
        · left; simpa using hx
        · exact absurd hl' (List.not_mem_nil l)
    | cons m ms =>
        rw [show consLine c (m :: ms) = (c :: m) :: ms from by simp [consLine, hc]] at hl
        rcases List.mem_cons.1 hl with rfl | hl'
        · rcases List.mem_cons.1 hx with rfl | hx'
          · left; rfl
          · right; exact ⟨m, List.mem_cons_self _ _, hx'⟩
        · right; exact ⟨l, List.mem_cons_of_mem _ hl', hx⟩

lemma mem_splitNL {x : Char} {s l : List Char}
    (hl : l ∈ splitNL s) (hx : x ∈ l) : x ∈ s := by
  induction s generalizing l with
  | nil => exact absurd hl (List.not_mem_nil l)
  | cons c cs ih =>
      rcases mem_consLine hl hx with rfl | ⟨m, hm, hxm⟩
      · exact List.mem_cons_self _ _
      · exact List.mem_cons_of_mem _ (ih hm hxm)

lemma translateNL_no_cr : ∀ s : List Char, ∀ c ∈ translateNL s, c ≠ '\r'
  | [] => by simp [translateNL]
  | [c] => by
      intro x hx
      by_cases hc : c = '\r'
      · rw [show translateNL [c] = ['\n'] from by simp [translateNL, hc]] at hx
        rcases List.mem_singleton.1 hx with rfl
        decide
      · rw [show translateNL [c] = [c] from by simp [translateNL, hc]] at hx
        rcases List.mem_singleton.1 hx with rfl
        exact hc
  | c :: d :: rest => by
      intro x hx
      by_cases hc : c = '\r'
      · by_cases hd : d = '\n'
        · rw [show translateNL (c :: d :: rest) = '\n' :: translateNL rest from by
            simp [translateNL, hc, hd]] at hx
          rcases List.mem_cons.1 hx with rfl | hx'
          · decide
          · exact translateNL_no_cr rest x hx'
        · rw [show translateNL (c :: d :: rest) = '\n' :: translateNL (d :: rest) from by
            simp [translateNL, hc, hd]] at hx
          rcases List.mem_cons.1 hx with rfl | hx'
          · decide
          · exact translateNL_no_cr (d :: rest) x hx'
      · rw [show translateNL (c :: d :: rest) = c :: translateNL (d :: rest) from by
          simp [translateNL, hc]] at hx
        rcases List.mem_cons.1 hx with rfl | hx'
        · exact hc
        · exact translateNL_no_cr (d :: rest) x hx'

lemma translateNL_id : ∀ s : List Char, (∀ c ∈ s, c ≠ '\r') → translateNL s = s
  | [] => fun _ => rfl
  | [c] => by
      intro h
      have hc : c ≠ '\r' := h c (by simp)
      simp [translateNL, hc]
  | c :: d :: rest => by
      intro h
      have hc : c ≠ '\r' := h c (by simp)
      have ht : ∀ x ∈ d :: rest, x ≠ '\r' := fun x hx => h x (List.mem_cons_of_mem _ hx)
      simp [translateNL, hc, translateNL_id (d :: rest) ht]

/-- C8: cleaning is idempotent.  `cleanedContent content` is exactly
what `clean_whitespace_lines` writes for a source holding `content`:
re-reading that output yields precisely the kept lines, every one of
them judged non-junk by `is_junk_line` — so a second clean pass
removes zero lines and reproduces its input verbatim. -/
theorem C8_clean_idempotent (content : List Char) :
    (pyReadLines (cleanedContent content)).filter (fun l => is_junk_line l) = [] ∧
      cleanedContent (cleanedContent content) = cleanedContent content := by
  have hkept : goodLines ((pyReadLines content).filter (fun l => !is_junk_line l)) = true :=
    goodLines_filter _ _ (goodLines_splitNL _)
  have hnocr : ∀ c ∈ ((pyReadLines content).filter (fun l => !is_junk_line l)).flatten,
      c ≠ '\r' := by
    intro c hc
    rcases List.mem_flatten.1 hc with ⟨l, hl, hcl⟩
    have hl' : l ∈ splitNL (translateNL content) := List.mem_of_mem_filter hl
    exact translateNL_no_cr content c (mem_splitNL hl' hcl)
  have hre : pyReadLines (cleanedContent content) =
      (pyReadLines content).filter (fun l => !is_junk_line l) := by
    show splitNL (translateNL (((pyReadLines content).filter
      (fun l => !is_junk_line l)).flatten)) = _
    rw [translateNL_id _ hnocr]
    exact splitNL_flatten _ hkept
  constructor
  · rw [hre, List.filter_filter]
    have he : (fun l => is_junk_line l && !is_junk_line l) =
        fun _ : List Char => false := by
      funext l
      cases is_junk_line l <;> rfl
    rw [he]
    simp
  · show ((pyReadLines (cleanedContent content)).filter
      (fun l => !is_junk_line l)).flatten = cleanedContent content
    rw [hre, List.filter_filter]
    have he : (fun l => !is_junk_line l && !is_junk_line l) =
        fun l : List Char => !is_junk_line l := by
      funext l
      cases is_junk_line l <;> rfl
    rw [he]
    rfl
